import Mathlib

/-!
Verification of the phoenix-tracker crawl/statistics pipeline.

Shallow embedding of the directory-crawl-to-metadata-reconciliation pipeline
and statistics rollup engine of the phoenix-tracker repository.  Database
tables are modelled as Lean lists of rows in insertion order; the SQL text
produced by the `to_sql` methods is modelled by its standard relational
semantics; filesystem trees are modelled as an inductive forest type.
-/

namespace PhoenixTracker

/-! ## Metadata reconciler (src/pipeline/models/phoenix_file.py) -/

/-- A row of the `phoenix_file` table, as created by
`PhoenixFile.__init__` (src/pipeline/models/phoenix_file.py).  Timestamps are
abstracted as naturals, the JSONB metadata map as an association list. -/
structure PhoenixFile where
  study_id : String
  subject_id : String
  file_path : String
  is_raw : Bool
  is_protected : Bool
  modality : String
  extracted_timestamp : Nat
  metadata : List (String × String)
deriving DecidableEq

/-- The `file_path` column of every row, in table order. -/
def pathsOf (t : List PhoenixFile) : List String := t.map (·.file_path)

/-- The `DO UPDATE SET` clause of `PhoenixFile.to_sql`: every column except
the `file_path` key is replaced by the incoming (`excluded`) row's value. -/
def updateRow (pf r : PhoenixFile) : PhoenixFile :=
  if r.file_path == pf.file_path then
    { r with study_id := pf.study_id, subject_id := pf.subject_id,
             is_raw := pf.is_raw, is_protected := pf.is_protected,
             modality := pf.modality,
             extracted_timestamp := pf.extracted_timestamp,
             metadata := pf.metadata }
  else r

/-- Relational semantics of the query generated by `PhoenixFile.to_sql`
(src/pipeline/models/phoenix_file.py, lines 85-111):
`INSERT INTO phoenix_file ... ON CONFLICT (file_path) DO UPDATE SET ...`.
If a row with the same `file_path` exists it is updated in place via
`updateRow`, otherwise the new row is appended. -/
def upsertPhoenixFile (t : List PhoenixFile) (pf : PhoenixFile) : List PhoenixFile :=
  if t.any (fun r => r.file_path == pf.file_path) then
    t.map (updateRow pf)
  else t ++ [pf]

/-- `import_phoenix_metadata` (src/pipeline/crawler/02_import_files.py)
executes one generated upsert per discovered file, in batch order. -/
def reconcileBatch (t : List PhoenixFile) (b : List PhoenixFile) : List PhoenixFile :=
  b.foldl upsertPhoenixFile t

/-- The row stored under a given `file_path` key (first match in table
order; unique when the key column has no duplicates). -/
def valAt : List PhoenixFile → String → Option PhoenixFile
  | [], _ => none
  | r :: rs, p => if r.file_path = p then some r else valAt rs p

/-- The last row of a batch carrying a given `file_path` (the value that
wins after the whole batch of upserts has executed). -/
def lastMatch : List PhoenixFile → String → Option PhoenixFile
  | [], _ => none
  | pf :: rest, p =>
    match lastMatch rest p with
    | some x => some x
    | none => if pf.file_path = p then some pf else none

/-- The `PRIMARY KEY (file_path)` constraint of the `phoenix_file` table:
no two rows share a path. -/
def pathsNodup (t : List PhoenixFile) : Prop := (pathsOf t).Nodup

instance : DecidablePred pathsNodup := fun t =>
  inferInstanceAs (Decidable (pathsOf t).Nodup)

/-! ## Rollup time-series store (src/pipeline/models/volume_statistics.py) -/

/-- A row of the `volume_statistics` table, as created by
`VolumeStatistics.__init__`.  `files_size_mb` is abstracted as a natural
number, timestamps as naturals. -/
structure VolumeStatistics where
  study_id : String
  subject_id : String
  is_raw : Bool
  is_protected : Bool
  modality : String
  files_count : Nat
  files_size_mb : Nat
  statistics_timestamp : Nat
deriving DecidableEq

/-- The composite primary key declared by
`VolumeStatistics.init_table_query`:
`(study_id, subject_id, is_raw, is_protected, modality, statistics_timestamp)`. -/
def vsKey (r : VolumeStatistics) : String × String × Bool × Bool × String × Nat :=
  (r.study_id, r.subject_id, r.is_raw, r.is_protected, r.modality,
   r.statistics_timestamp)

/-- Error raised by the store when a write violates a constraint. -/
inductive SqlError where
  | uniqueViolation
deriving DecidableEq

/-- Relational semantics of the query generated by `VolumeStatistics.to_sql`
(src/pipeline/models/volume_statistics.py, lines 76-91): a plain
`INSERT INTO volume_statistics ... VALUES ...` with no conflict clause.
Against the table's composite primary key a duplicate-key insert is
rejected; a fresh key is appended, never touching existing rows. -/
def insertVolumeStatistics (t : List VolumeStatistics) (r : VolumeStatistics) :
    Except SqlError (List VolumeStatistics) :=
  if t.any (fun x => vsKey x == vsKey r) then
    Except.error SqlError.uniqueViolation
  else
    Except.ok (t ++ [r])

/-- The primary-key invariant of `volume_statistics`: no two rows share the
composite key. -/
def vsKeysNodup (t : List VolumeStatistics) : Prop := (t.map vsKey).Nodup

instance : DecidablePred vsKeysNodup := fun t =>
  inferInstanceAs (Decidable (t.map vsKey).Nodup)

/-! ## Statistics aggregator (src/pipeline/crawler/03_compute_statistics.py
and src/pipeline/data.py) -/

/-- One row of the `phoenix_file LEFT JOIN files USING (file_path)` result
set consumed by the statistics queries in src/pipeline/data.py.  The join
contributes `file_size_mb` from the `files` table. -/
structure PhoenixRow where
  study_id : String
  subject_id : String
  file_path : String
  is_raw : Bool
  is_protected : Bool
  modality : String
  metadata : List (String × String)
  file_size_mb : Nat
deriving DecidableEq

/-- One element of the `results` list built by `process_subject`
(src/pipeline/crawler/03_compute_statistics.py).  `study_id` is the value
returned by `data.get_subject_study_id`, hence optional. -/
structure StatRow where
  subject_id : String
  study_id : Option String
  modality : String
  is_protected : Bool
  is_raw : Bool
  files_count : Nat
  files_size_mb : Nat
deriving DecidableEq

/-- `data.get_subject_study_id`: first `study_id` of the `subjects` table
matching the subject (the table is modelled as `(subject_id, study_id)`
pairs). -/
def get_subject_study_id (subjects : List (String × String)) (subject : String) :
    Option String :=
  (subjects.find? (fun s => s.1 == subject)).map (·.2)

/-- The `subject_id = ... AND study_id = ...` condition shared by the
statistics queries of src/pipeline/data.py; a row matches only when the
study lookup succeeded with that row's study. -/
def rowForSubject (so : Option String) (subject : String) (r : PhoenixRow) : Bool :=
  r.subject_id == subject && some r.study_id == so

/-- `data.get_subject_modalities`: `SELECT DISTINCT modality FROM
phoenix_file WHERE subject_id = ... AND study_id = ...`. -/
def get_subject_modalities (db : List PhoenixRow) (so : Option String)
    (subject : String) : List String :=
  ((db.filter (rowForSubject so subject)).map (·.modality)).dedup

/-- `data.get_subject_modality_files`: all of the subject's rows of one
modality, across all four protection/stage partitions. -/
def get_subject_modality_files (db : List PhoenixRow) (so : Option String)
    (subject modality : String) : List PhoenixRow :=
  db.filter (fun r => rowForSubject so subject r && r.modality == modality)

/-- Byte-list prefix test, used to model SQL `LIKE`. -/
def charsStartWith : List Char → List Char → Bool
  | [], _ => true
  | _ :: _, [] => false
  | a :: as, b :: bs => a == b && charsStartWith as bs

/-- Byte-list containment test, used to model SQL `LIKE`. -/
def charsContain (needle : List Char) : List Char → Bool
  | [] => charsStartWith needle []
  | b :: bs => charsStartWith needle (b :: bs) || charsContain needle bs

/-- Semantics of `text LIKE '%%value%%'` (a substring match, since `%`
matches any sequence). -/
def likeMatches (value text : String) : Bool := charsContain value.data text.data

/-- Semantics of `metadata->>'key' LIKE '%%value%%'`: `->>` yields SQL NULL
when the key is absent, and `NULL LIKE ...` is not true. -/
def metadataMatches (md : List (String × String)) (key value : String) : Bool :=
  match md.lookup key with
  | some s => likeMatches value s
  | none => false

/-- `data.get_subject_modality_files_by_metadata`
(src/pipeline/data.py, lines 260-294): the subject's rows of one modality
whose metadata field matches — note the query has NO `is_protected` /
`is_raw` condition, so it spans all four partitions. -/
def get_subject_modality_files_by_metadata (db : List PhoenixRow)
    (so : Option String) (subject modality key value : String) : List PhoenixRow :=
  db.filter (fun r =>
    rowForSubject so subject r && r.modality == modality &&
      metadataMatches r.metadata key value)

/-- The `filtered_df` of `process_subject`: the subject's files of one
modality restricted to one protection/stage combination. -/
def partitionFiles (db : List PhoenixRow) (so : Option String)
    (subject modality : String) (ip ir : Bool) : List PhoenixRow :=
  (get_subject_modality_files db so subject modality).filter
    (fun r => r.is_protected == ip && r.is_raw == ir)

/-- `filtered_df["file_size_mb"].sum()`. -/
def sizeSum (rows : List PhoenixRow) : Nat := (rows.map (·.file_size_mb)).sum

/-- The `sub_types` table of `process_subject`
(src/pipeline/crawler/03_compute_statistics.py, lines 98-108). -/
def subTypesFor (modality : String) : List (String × String) :=
  if modality == "phone" then
    [("mindlamp_type", "sensor"), ("mindlamp_type", "activity")]
  else if modality == "surveys" then
    [("redcap_instance", "UPENN"), ("redcap_instance", "MGB")]
  else []

/-- The result dictionary built for one sub-type (lines 127-135): the
synthetic `<modality>_<subtype_value>` name, `True/True` flags (the loop
variables inside the `is_protected and is_raw` branch), and count/size of
the metadata query's result. -/
def subTypeStatRow (db : List PhoenixRow) (so : Option String)
    (subject modality key value : String) : StatRow :=
  { subject_id := subject, study_id := so,
    modality := modality ++ "_" ++ value,
    is_protected := true, is_raw := true,
    files_count :=
      (get_subject_modality_files_by_metadata db so subject modality
        key value).length,
    files_size_mb :=
      sizeSum (get_subject_modality_files_by_metadata db so subject modality
        key value) }

/-- The sub-type breakdown loop of `process_subject` (lines 110-136): one
synthetic row per sub-type whose metadata query is non-empty. -/
def subTypeRows (db : List PhoenixRow) (so : Option String)
    (subject modality : String) : List StatRow :=
  (subTypesFor modality).flatMap (fun kv =>
    if (get_subject_modality_files_by_metadata db so subject modality
        kv.1 kv.2).isEmpty then []
    else [subTypeStatRow db so subject modality kv.1 kv.2])

/-- The result dictionary built for one non-empty partition (lines 85-93). -/
def partitionStatRow (db : List PhoenixRow) (so : Option String)
    (subject modality : String) (ip ir : Bool) : StatRow :=
  { subject_id := subject, study_id := so, modality := modality,
    is_protected := ip, is_raw := ir,
    files_count := (partitionFiles db so subject modality ip ir).length,
    files_size_mb := sizeSum (partitionFiles db so subject modality ip ir) }

/-- One iteration of the protection/stage double loop of `process_subject`
(lines 72-136): skip empty partitions, else emit the partition row followed
by the sub-type rows when the partition is protected+raw. -/
def partitionRows (db : List PhoenixRow) (so : Option String)
    (subject modality : String) (ip ir : Bool) : List StatRow :=
  if (partitionFiles db so subject modality ip ir).isEmpty then []
  else
    partitionStatRow db so subject modality ip ir
    :: (if ip && ir then subTypeRows db so subject modality else [])

/-- The four protection/stage combinations, in the iteration order of the
source's nested loops (`is_protected in [True, False]` outer, `is_raw in
[True, False]` inner). -/
def allCombos : List (Bool × Bool) :=
  [(true, true), (true, false), (false, true), (false, false)]

/-- The per-modality body of `process_subject`. -/
def modalityRows (db : List PhoenixRow) (so : Option String)
    (subject modality : String) : List StatRow :=
  allCombos.flatMap (fun c => partitionRows db so subject modality c.1 c.2)

/-- `process_subject` (src/pipeline/crawler/03_compute_statistics.py,
lines 51-138): statistics rows for one subject, across the subject's
modalities and the four partitions. -/
def process_subject (subjects : List (String × String)) (db : List PhoenixRow)
    (subject : String) : List StatRow :=
  (get_subject_modalities db (get_subject_study_id subjects subject) subject).flatMap
    (modalityRows db (get_subject_study_id subjects subject) subject)

/-- Specification-side key of a statistics row: its modality and
protection/stage combination. -/
def statKeyPred (mq : String) (ip ir : Bool) (r : StatRow) : Bool :=
  r.modality == mq && r.is_protected == ip && r.is_raw == ir

/-- The synthetic modality names the sub-type loop can emit. -/
def synthModalities : List String :=
  ["phone_sensor", "phone_activity", "surveys_UPENN", "surveys_MGB"]

/-- The persistence step of `compute_statistics` (lines 184-211): each merged
result dictionary becomes a `VolumeStatistics` row stamped with the single
`timestamp = datetime.now()` taken once after the pool join.  (A `None`
study id is rendered as the string `None` by the f-string in
`VolumeStatistics.to_sql`.) -/
def statToVolume (now : Nat) (r : StatRow) : VolumeStatistics :=
  { study_id := r.study_id.getD "None", subject_id := r.subject_id,
    is_raw := r.is_raw, is_protected := r.is_protected, modality := r.modality,
    files_count := r.files_count, files_size_mb := r.files_size_mb,
    statistics_timestamp := now }

/-- `compute_statistics` (lines 154-218), after fan-in: the per-subject
result lists are merged into one batch and every row is persisted with the
one shared run timestamp. -/
def compute_statistics_rows (perSubject : List (List StatRow)) (now : Nat) :
    List VolumeStatistics :=
  perSubject.flatten.map (statToVolume now)

/-! ## Crawl control flow (src/pipeline/crawler/02_import_files.py) -/

/-- The exceptions that can escape `parse_subject_files_by_type`:
`FileNotFoundError` (raised explicitly for an unknown subject or a missing
partition directory) and `PermissionError` (raised by the filesystem during
traversal, e.g. by `subject_data_root.iterdir()`). -/
inductive CrawlError where
  | fileNotFound
  | permissionDenied
deriving DecidableEq

/-- Messages printed by `parse_subject_files_by_type`. -/
inductive LogMsg where
  | noData (is_protected is_raw : Bool)
  | subjectMissing
deriving DecidableEq

/-- Abstract outcome of resolving and enumerating one protection/stage
combination for one subject: the study lookup failed, the resolved
directory does not exist, the filesystem denied access during traversal, or
enumeration succeeded with a list of results. -/
inductive CombOutcome (α : Type) where
  | unknownStudy : CombOutcome α
  | missingDir : CombOutcome α
  | denied : CombOutcome α
  | found (files : List α) : CombOutcome α
deriving DecidableEq

/-- `parse_subject_files_by_type` (src/pipeline/crawler/02_import_files.py,
lines 96-149).  An unknown subject prints a message and raises
`FileNotFoundError`; a missing directory raises `FileNotFoundError` after
printing `"Subject ... has no data"` — suppressed exactly when the
combination is general+raw (`if not (not is_protected and is_raw)`); a
permission error during traversal propagates unlogged; otherwise the
enumerated files are returned. -/
def parse_subject_files_by_type (ip ir : Bool) (outcome : CombOutcome α) :
    Except CrawlError (List α) × List LogMsg :=
  match outcome with
  | CombOutcome.unknownStudy =>
      (Except.error CrawlError.fileNotFound, [LogMsg.subjectMissing])
  | CombOutcome.missingDir =>
      (Except.error CrawlError.fileNotFound,
       if !ip && ir then [] else [LogMsg.noData ip ir])
  | CombOutcome.denied => (Except.error CrawlError.permissionDenied, [])
  | CombOutcome.found fs => (Except.ok fs, [])

/-- The combination loop of `parse_subject_files` (lines 166-180): each
combination's `FileNotFoundError` is caught (`except FileNotFoundError:
pass`) and the loop continues; any other exception propagates immediately,
abandoning the remaining combinations. -/
def runCombos (env : Bool → Bool → CombOutcome α) :
    List (Bool × Bool) → Except CrawlError (List α) × List LogMsg
  | [] => (Except.ok [], [])
  | c :: rest =>
    match parse_subject_files_by_type c.1 c.2 (env c.1 c.2) with
    | (Except.ok fs, lg) =>
        let r := runCombos env rest
        (r.1.map (fun more => fs ++ more), lg ++ r.2)
    | (Except.error CrawlError.fileNotFound, lg) =>
        let r := runCombos env rest
        (r.1, lg ++ r.2)
    | (Except.error CrawlError.permissionDenied, lg) =>
        (Except.error CrawlError.permissionDenied, lg)

/-- `parse_subject_files` (lines 152-180): try all four protection/stage
combinations in source order, catching only `FileNotFoundError`. -/
def parse_subject_files (env : Bool → Bool → CombOutcome α) :
    Except CrawlError (List α) × List LogMsg :=
  runCombos env allCombos

/-- The fan-out/fan-in of `import_phoenix_metadata` (lines 199-241): each
subject is parsed by a pool worker and results are merged; an exception
raised inside a worker re-raises at the `imap_unordered` iteration point,
aborting the whole run (nothing catches it). -/
def importRun : List (Bool → Bool → CombOutcome α) → Except CrawlError (List α)
  | [] => Except.ok []
  | env :: rest =>
    match (parse_subject_files env).1 with
    | Except.error e => Except.error e
    | Except.ok fs =>
      match importRun rest with
      | Except.error e => Except.error e
      | Except.ok others => Except.ok (fs ++ others)

/-- Specification-side reading of one combination's contribution: the
enumerated files on success, nothing otherwise. -/
def specContribution (env : Bool → Bool → CombOutcome α) (c : Bool × Bool) :
    List α :=
  match env c.1 c.2 with
  | CombOutcome.found fs => fs
  | _ => []

/-- Specification-side reading of when a combination logs the
missing-directory message: its directory is missing and it is not the
suppressed general+raw case. -/
def specMissingLogged (env : Bool → Bool → CombOutcome α) (c : Bool × Bool) :
    Bool :=
  match env c.1 c.2 with
  | CombOutcome.missingDir => !(!c.1 && c.2)
  | _ => false

/-! ## File enumerator (src/pipeline/crawler/02_import_files.py,
`parse_subject_files_by_modality_root`) -/

/-- The contents of a directory, as a finitely branching forest: each spine
cell is either a regular file (with size in bytes) or a subdirectory with
its own contents. -/
inductive FsForest where
  | nil : FsForest
  | fileCons (name : String) (size : Nat) (rest : FsForest) : FsForest
  | dirCons (name : String) (children : FsForest) (rest : FsForest) : FsForest
deriving DecidableEq

/-- One path yielded by `Path.rglob("*")`: its string form and, when it is
a regular file, its size (`none` marks a directory, for which
`path.is_file()` is false). -/
structure FsNode where
  path : String
  size : Option Nat
deriving DecidableEq

/-- `modality_root.rglob("*")`: every descendant path under a directory,
files and directories alike. -/
def rglobForest (dirPath : String) : FsForest → List FsNode
  | FsForest.nil => []
  | FsForest.fileCons n sz rest =>
      { path := dirPath ++ "/" ++ n, size := some sz } :: rglobForest dirPath rest
  | FsForest.dirCons n cs rest =>
      { path := dirPath ++ "/" ++ n, size := none }
        :: (rglobForest (dirPath ++ "/" ++ n) cs ++ rglobForest dirPath rest)

/-- Modelled from the spec: the `File` record built by
`File(file_path=path, with_hash=False)` — `src/pipeline/models/files.py` is
not among the provided sources; per spec §3 a File carries its path, its
size, and an optional content hash which is not computed in the hot path. -/
structure FileRec where
  file_path : String
  file_size : Nat
  md5 : Option String
deriving DecidableEq

/-- `parse_subject_files_by_modality_root` (lines 52-93): walk
`modality_root.rglob("*")`, keep regular files, and build one
`(File, PhoenixFile)` pair per file — the `PhoenixFile` stamped with the
subject, study, the partition flags, the modality directory's own name
(`modality_root.name`), the wall-clock time, and an empty metadata map; the
`File` built without hashing. -/
def parse_subject_files_by_modality_root (subject study : String)
    (parentPath mname : String) (contents : FsForest) (ip ir : Bool)
    (now : Nat) : List (FileRec × PhoenixFile) :=
  (rglobForest (parentPath ++ "/" ++ mname) contents).filterMap (fun nd =>
    match nd.size with
    | some sz =>
        some ({ file_path := nd.path, file_size := sz, md5 := none },
              { study_id := study, subject_id := subject, file_path := nd.path,
                is_raw := ir, is_protected := ip, modality := mname,
                extracted_timestamp := now, metadata := [] })
    | none => none)

/-- Specification-side characterization: the regular files reachable by
recursive traversal beneath a directory, with their paths and sizes
(directories contribute nothing themselves). -/
def specRegularFiles (dirPath : String) : FsForest → List (String × Nat)
  | FsForest.nil => []
  | FsForest.fileCons n sz rest =>
      (dirPath ++ "/" ++ n, sz) :: specRegularFiles dirPath rest
  | FsForest.dirCons n cs rest =>
      specRegularFiles (dirPath ++ "/" ++ n) cs ++ specRegularFiles dirPath rest

/-! ## Delta report (src/pipeline/scripts/send_notification.py) -/

/-- `study.network_id` via `LEFT JOIN study USING (study_id)`: the network
of a study, from the `study` table modelled as `(study_id, network_id)`
pairs. -/
def networkOf (study : List (String × String)) (sid : String) : Option String :=
  (study.find? (fun s => s.1 == sid)).map (·.2)

/-- The WHERE clause shared by the four sum queries of
`construct_slack_blockkit_json` (lines 210-274): timestamp, modality,
network (via the study join), and the protection/stage flags. -/
def vsMatches (study : List (String × String)) (ts : Nat)
    (modality network : String) (ip ir : Bool) (r : VolumeStatistics) : Bool :=
  r.statistics_timestamp == ts && r.modality == modality &&
    networkOf study r.study_id == some network &&
    r.is_raw == ir && r.is_protected == ip

/-- `SELECT SUM(files_count) ... WHERE ...` over the rollup store. -/
def sumFilesCount (vs : List VolumeStatistics) (study : List (String × String))
    (ts : Nat) (modality network : String) (ip ir : Bool) : Nat :=
  ((vs.filter (vsMatches study ts modality network ip ir)).map
    (·.files_count)).sum

/-- `SELECT SUM(files_size_mb) ... WHERE ...` over the rollup store. -/
def sumFilesSize (vs : List VolumeStatistics) (study : List (String × String))
    (ts : Nat) (modality network : String) (ip ir : Bool) : Nat :=
  ((vs.filter (vsMatches study ts modality network ip ir)).map
    (·.files_size_mb)).sum

/-- The per-modality flag selection of `construct_slack_blockkit_json`
(lines 200-208): `is_protected = is_raw = True`, overridden to
`False/False` for the `interviews` modality. -/
def reportFlags (modality : String) : Bool × Bool :=
  if modality == "interviews" then (false, false) else (true, true)

/-- One bullet entry of the Slack report. -/
structure DeltaRow where
  network : String
  modality : String
  delta_files : Int
  delta_size : Int
deriving DecidableEq

/-- `delta_files = int(files_sum_current) - int(files_sum_previous)` and
`delta_size = ...` for one network/modality pair (lines 210-280). -/
def deltaRowFor (vs : List VolumeStatistics) (study : List (String × String))
    (t1 t2 : Nat) (network modality : String) : DeltaRow :=
  { network := network, modality := modality,
    delta_files :=
      (sumFilesCount vs study t2 modality network (reportFlags modality).1
          (reportFlags modality).2 : Int) -
        (sumFilesCount vs study t1 modality network (reportFlags modality).1
          (reportFlags modality).2 : Int),
    delta_size :=
      (sumFilesSize vs study t2 modality network (reportFlags modality).1
          (reportFlags modality).2 : Int) -
        (sumFilesSize vs study t1 modality network (reportFlags modality).1
          (reportFlags modality).2 : Int) }

/-- The hard-coded network list of `construct_slack_blockkit_json`. -/
def reportNetworks : List String := ["ProNET", "PRESCIENT"]

/-- The double loop of `construct_slack_blockkit_json` (lines 185-297): one
delta entry per network and modality, plus the `issue_detected` flag, set
when any entry has `delta_size == 0 or delta_files == 0`. -/
def construct_report (vs : List VolumeStatistics)
    (study : List (String × String)) (modalities : List String) (t1 t2 : Nat) :
    List DeltaRow × Bool :=
  let rows := reportNetworks.flatMap (fun n =>
    modalities.map (fun m => deltaRowFor vs study t1 t2 n m))
  (rows, rows.any (fun r => r.delta_size == 0 || r.delta_files == 0))

/-! ## Concrete instances used to exercise the theorems -/

/-- A reconciled row for study `ST`, subject `S1`. -/
def wpfA : PhoenixFile :=
  { study_id := "ST", subject_id := "S1", file_path := "/data/a.csv",
    is_raw := true, is_protected := true, modality := "mri",
    extracted_timestamp := 1, metadata := [] }

/-- A re-crawl of the same path with changed mutable columns. -/
def wpfA2 : PhoenixFile :=
  { wpfA with modality := "eeg", extracted_timestamp := 2 }

/-- A row for a fresh path. -/
def wpfB : PhoenixFile :=
  { study_id := "ST", subject_id := "S1", file_path := "/data/b.csv",
    is_raw := false, is_protected := false, modality := "phone",
    extracted_timestamp := 2, metadata := [("mindlamp_type", "sensor")] }

/-- A statistics row. -/
def wvs1 : VolumeStatistics :=
  { study_id := "ST", subject_id := "S1", is_raw := true, is_protected := true,
    modality := "mri", files_count := 3, files_size_mb := 12,
    statistics_timestamp := 10 }

/-- A statistics row sharing `wvs1`'s composite key with different counts. -/
def wvs1b : VolumeStatistics := { wvs1 with files_count := 5 }

/-- A per-subject aggregation result. -/
def wStat : StatRow :=
  { subject_id := "S1", study_id := some "ST", modality := "phone",
    is_protected := true, is_raw := true, files_count := 2,
    files_size_mb := 4 }

/-- A one-subject `subjects` table. -/
def wSubjects : List (String × String) := [("S1", "ST")]

/-- A `phone`-modality row of the joined query result for subject `S1`. -/
def wRow (p : String) (ip ir : Bool) (md : List (String × String)) :
    PhoenixRow :=
  { study_id := "ST", subject_id := "S1", file_path := p, is_raw := ir,
    is_protected := ip, modality := "phone", metadata := md,
    file_size_mb := 1 }

/-- A store where the protected+raw phone partition holds one sensor-tagged
and one activity-tagged file, while two more sensor-tagged phone files live
in the general+processed partition. -/
def cexDb : List PhoenixRow :=
  [wRow "/p1" true true [("mindlamp_type", "sensor")],
   wRow "/p2" true true [("mindlamp_type", "activity")],
   wRow "/p3" false false [("mindlamp_type", "sensor")],
   wRow "/p4" false false [("mindlamp_type", "sensor")]]

/-- A subject whose four combinations all enumerate successfully. -/
def envAllFound : Bool → Bool → CombOutcome Nat := fun _ _ =>
  CombOutcome.found [1, 2]

/-- A subject whose directory raises a permission error. -/
def envDenied : Bool → Bool → CombOutcome Nat := fun _ _ => CombOutcome.denied

/-- A subject with data only in protected+raw, a missing protected+processed
directory, and a missing general+raw directory (the suppressed case). -/
def envMixed : Bool → Bool → CombOutcome Nat := fun ip ir =>
  if ip then (if ir then CombOutcome.found [5] else CombOutcome.missingDir)
  else (if ir then CombOutcome.missingDir else CombOutcome.found [])

/-- A `study` table mapping study `ST` to network `ProNET`. -/
def wStudies : List (String × String) := [("ST", "ProNET")]

/-- The `mri` rollup row of the run at timestamp 1. -/
def wvsT1 : VolumeStatistics :=
  { study_id := "ST", subject_id := "S1", is_raw := true, is_protected := true,
    modality := "mri", files_count := 100, files_size_mb := 50,
    statistics_timestamp := 1 }

/-- The `mri` rollup row of the run at timestamp 2. -/
def wvsT2 : VolumeStatistics :=
  { wvsT1 with
    files_count := 140
    files_size_mb := 80
    statistics_timestamp := 2 }

/-! ## Lemmas about the metadata reconciler -/

theorem updateRow_file_path (pf r : PhoenixFile) :
    (updateRow pf r).file_path = r.file_path := by
  unfold updateRow; split <;> rfl

theorem updateRow_of_ne (pf r : PhoenixFile) (h : r.file_path ≠ pf.file_path) :
    updateRow pf r = r := by
  unfold updateRow
  rw [if_neg]
  simpa using h

theorem updateRow_of_eq (pf r : PhoenixFile) (h : r.file_path = pf.file_path) :
    updateRow pf r = pf := by
  unfold updateRow
  rw [if_pos (by simpa using h)]
  cases pf
  cases r
  dsimp only at h ⊢
  rw [h]

theorem any_path_iff (t : List PhoenixFile) (pf : PhoenixFile) :
    (t.any (fun r => r.file_path == pf.file_path) = true) ↔
      pf.file_path ∈ pathsOf t := by
  rw [List.any_eq_true]
  unfold pathsOf
  rw [List.mem_map]
  constructor
  · rintro ⟨r, hr, he⟩
    exact ⟨r, hr, beq_iff_eq.mp he⟩
  · rintro ⟨r, hr, he⟩
    exact ⟨r, hr, beq_iff_eq.mpr he⟩

theorem upsert_of_not_mem (t : List PhoenixFile) (pf : PhoenixFile)
    (h : pf.file_path ∉ pathsOf t) :
    upsertPhoenixFile t pf = t ++ [pf] := by
  unfold upsertPhoenixFile
  rw [if_neg (fun hc => h ((any_path_iff t pf).mp hc))]

theorem upsert_of_mem (t : List PhoenixFile) (pf : PhoenixFile)
    (h : pf.file_path ∈ pathsOf t) :
    upsertPhoenixFile t pf = t.map (updateRow pf) := by
  unfold upsertPhoenixFile
  rw [if_pos ((any_path_iff t pf).mpr h)]

theorem pathsOf_map_updateRow (t : List PhoenixFile) (pf : PhoenixFile) :
    pathsOf (t.map (updateRow pf)) = pathsOf t := by
  unfold pathsOf
  rw [List.map_map]
  exact List.map_congr_left (fun r _ => updateRow_file_path pf r)

theorem pathsOf_upsert (t : List PhoenixFile) (pf : PhoenixFile) :
    pathsOf (upsertPhoenixFile t pf) =
      if pf.file_path ∈ pathsOf t then pathsOf t
      else pathsOf t ++ [pf.file_path] := by
  by_cases h : pf.file_path ∈ pathsOf t
  · rw [upsert_of_mem t pf h, if_pos h, pathsOf_map_updateRow]
  · rw [upsert_of_not_mem t pf h, if_neg h]
    simp [pathsOf]

theorem valAt_eq_some_path (t : List PhoenixFile) (p : String) (r : PhoenixFile)
    (h : valAt t p = some r) : r.file_path = p := by
  induction t with
  | nil => simp [valAt] at h
  | cons x xs ih =>
    unfold valAt at h
    split at h
    · cases h; assumption
    · exact ih h

theorem valAt_eq_none_iff (t : List PhoenixFile) (p : String) :
    valAt t p = none ↔ p ∉ pathsOf t := by
  induction t with
  | nil => simp [valAt, pathsOf]
  | cons x xs ih =>
    unfold valAt
    by_cases hx : x.file_path = p
    · simp [hx, pathsOf]
    · simp only [if_neg hx, ih, pathsOf, List.map_cons, List.mem_cons]
      constructor
      · intro hn hc
        rcases hc with hc | hc
        · exact hx hc.symm
        · exact hn (by simpa [pathsOf] using hc)
      · intro hn hc
        exact hn (Or.inr (by simpa [pathsOf] using hc))

theorem valAt_some_mem (t : List PhoenixFile) (p : String) (r : PhoenixFile)
    (h : valAt t p = some r) : p ∈ pathsOf t := by
  by_contra hc
  rw [(valAt_eq_none_iff t p).mpr hc] at h
  cases h

theorem valAt_mem (t : List PhoenixFile) (p : String) (h : p ∈ pathsOf t) :
    ∃ r, valAt t p = some r ∧ r.file_path = p := by
  cases hv : valAt t p with
  | none => exact absurd h ((valAt_eq_none_iff t p).mp hv)
  | some r => exact ⟨r, rfl, valAt_eq_some_path t p r hv⟩

theorem valAt_cons (x : PhoenixFile) (xs : List PhoenixFile) (p : String) :
    valAt (x :: xs) p = if x.file_path = p then some x else valAt xs p := rfl

theorem lastMatch_cons (x : PhoenixFile) (rest : List PhoenixFile) (p : String) :
    lastMatch (x :: rest) p =
      match lastMatch rest p with
      | some y => some y
      | none => if x.file_path = p then some x else none := rfl

theorem valAt_append (t₁ t₂ : List PhoenixFile) (p : String) :
    valAt (t₁ ++ t₂) p =
      match valAt t₁ p with
      | some r => some r
      | none => valAt t₂ p := by
  induction t₁ with
  | nil => simp [valAt]
  | cons x xs ih =>
    rw [List.cons_append, valAt_cons, valAt_cons]
    by_cases hx : x.file_path = p <;> simp [hx, ih]

theorem valAt_map_updateRow (t : List PhoenixFile) (pf : PhoenixFile) (p : String) :
    valAt (t.map (updateRow pf)) p = (valAt t p).map (updateRow pf) := by
  induction t with
  | nil => simp [valAt]
  | cons x xs ih =>
    rw [List.map_cons]
    unfold valAt
    rw [updateRow_file_path]
    by_cases hx : x.file_path = p <;> simp [hx, ih]

theorem valAt_upsert (t : List PhoenixFile) (pf : PhoenixFile) (p : String) :
    valAt (upsertPhoenixFile t pf) p =
      if pf.file_path = p then some pf else valAt t p := by
  by_cases hm : pf.file_path ∈ pathsOf t
  · rw [upsert_of_mem t pf hm, valAt_map_updateRow]
    by_cases hp : pf.file_path = p
    · subst hp
      obtain ⟨r, hr, hrp⟩ := valAt_mem t pf.file_path hm
      rw [hr, if_pos rfl]
      exact congrArg some (updateRow_of_eq pf r hrp)
    · rw [if_neg hp]
      cases hv : valAt t p with
      | none => rfl
      | some r =>
        have hrp := valAt_eq_some_path t p r hv
        exact congrArg some
          (updateRow_of_ne pf r (by rw [hrp]; exact fun hc => hp hc.symm))
  · rw [upsert_of_not_mem t pf hm, valAt_append]
    cases hv : valAt t p with
    | some r =>
      have hmem : p ∈ pathsOf t := valAt_some_mem t p r hv
      have hne : pf.file_path ≠ p := fun he => hm (he ▸ hmem)
      simp [hne]
    | none =>
      by_cases hp : pf.file_path = p <;> simp [valAt, hp]

theorem pathsNodup_upsert (t : List PhoenixFile) (pf : PhoenixFile)
    (h : pathsNodup t) : pathsNodup (upsertPhoenixFile t pf) := by
  unfold pathsNodup
  rw [pathsOf_upsert]
  by_cases hm : pf.file_path ∈ pathsOf t
  · rwa [if_pos hm]
  · rw [if_neg hm, List.nodup_append]
    refine ⟨h, List.nodup_singleton _, fun a ha hb => ?_⟩
    rw [List.mem_singleton] at hb
    exact hm (hb ▸ ha)

theorem reconcileBatch_cons (t : List PhoenixFile) (pf : PhoenixFile)
    (b : List PhoenixFile) :
    reconcileBatch t (pf :: b) = reconcileBatch (upsertPhoenixFile t pf) b := rfl

theorem mem_pathsOf_upsert_self (t : List PhoenixFile) (pf : PhoenixFile) :
    pf.file_path ∈ pathsOf (upsertPhoenixFile t pf) := by
  rw [pathsOf_upsert]
  by_cases hm : pf.file_path ∈ pathsOf t <;> simp [hm]

theorem pathsOf_upsert_mono (t : List PhoenixFile) (pf : PhoenixFile)
    (p : String) (h : p ∈ pathsOf t) :
    p ∈ pathsOf (upsertPhoenixFile t pf) := by
  rw [pathsOf_upsert]
  by_cases hm : pf.file_path ∈ pathsOf t <;> simp [hm, h]

theorem pathsOf_batch_mono (b : List PhoenixFile) :
    ∀ (t : List PhoenixFile) (p : String), p ∈ pathsOf t →
      p ∈ pathsOf (reconcileBatch t b) := by
  induction b with
  | nil => exact fun t p h => h
  | cons pf rest ih =>
    exact fun t p h => ih _ p (pathsOf_upsert_mono t pf p h)

theorem mem_pathsOf_batch (b : List PhoenixFile) :
    ∀ (t : List PhoenixFile) (pf : PhoenixFile), pf ∈ b →
      pf.file_path ∈ pathsOf (reconcileBatch t b) := by
  induction b with
  | nil => intro t pf h; cases h
  | cons x rest ih =>
    intro t pf h
    rcases List.mem_cons.mp h with h | h
    · subst h
      exact pathsOf_batch_mono rest _ _ (mem_pathsOf_upsert_self t pf)
    · exact ih _ pf h

theorem pathsOf_batch_absorbed (b : List PhoenixFile) :
    ∀ (t : List PhoenixFile), (∀ pf ∈ b, pf.file_path ∈ pathsOf t) →
      pathsOf (reconcileBatch t b) = pathsOf t := by
  induction b with
  | nil => intro t _; rfl
  | cons x rest ih =>
    intro t h
    have hx : x.file_path ∈ pathsOf t := h x (by simp)
    have hup : pathsOf (upsertPhoenixFile t x) = pathsOf t := by
      rw [pathsOf_upsert, if_pos hx]
    rw [reconcileBatch_cons,
      ih (upsertPhoenixFile t x) (fun pf hpf => by
        rw [hup]; exact h pf (List.mem_cons_of_mem _ hpf)),
      hup]

theorem pathsNodup_batch (b : List PhoenixFile) :
    ∀ t, pathsNodup t → pathsNodup (reconcileBatch t b) := by
  induction b with
  | nil => exact fun _ h => h
  | cons x rest ih => exact fun t h => ih _ (pathsNodup_upsert t x h)

theorem valAt_batch (b : List PhoenixFile) :
    ∀ (t : List PhoenixFile) (p : String),
      valAt (reconcileBatch t b) p =
        match lastMatch b p with
        | some x => some x
        | none => valAt t p := by
  induction b with
  | nil => intro t p; rfl
  | cons x rest ih =>
    intro t p
    rw [reconcileBatch_cons, ih, lastMatch_cons]
    cases hl : lastMatch rest p with
    | some y => rfl
    | none =>
      rw [valAt_upsert]
      by_cases hx : x.file_path = p <;> simp [hx]

theorem table_ext (t : List PhoenixFile) :
    ∀ (t' : List PhoenixFile), pathsNodup t →
      pathsOf t = pathsOf t' → (∀ p, valAt t p = valAt t' p) → t = t' := by
  induction t with
  | nil =>
    intro t' _ hp _
    cases t' with
    | nil => rfl
    | cons y ys => simp [pathsOf] at hp
  | cons x xs ih =>
    intro t' hnd hp hv
    cases t' with
    | nil => simp [pathsOf] at hp
    | cons y ys =>
      have hpc : x.file_path = y.file_path ∧ pathsOf xs = pathsOf ys := by
        simpa [pathsOf] using hp
      have hx : x = y := by
        have h1 := hv x.file_path
        unfold valAt at h1
        rw [if_pos rfl, if_pos hpc.1.symm] at h1
        exact Option.some.inj h1
      subst hx
      have hnd' : x.file_path ∉ pathsOf xs ∧ pathsNodup xs := by
        have : (x.file_path :: pathsOf xs).Nodup := hnd
        exact List.nodup_cons.mp this
      have htail : xs = ys := by
        refine ih ys hnd'.2 hpc.2 (fun p => ?_)
        have h2 := hv p
        unfold valAt at h2
        by_cases hxp : x.file_path = p
        · rw [(valAt_eq_none_iff xs p).mpr (hxp ▸ hnd'.1),
            (valAt_eq_none_iff ys p).mpr (hxp ▸ (hpc.2 ▸ hnd'.1))]
        · rwa [if_neg hxp, if_neg (hpc.1 ▸ hxp)] at h2
      rw [htail]

theorem reconcileBatch_idem (t b : List PhoenixFile) (h : pathsNodup t) :
    reconcileBatch (reconcileBatch t b) b = reconcileBatch t b := by
  apply table_ext
  · exact pathsNodup_batch b _ (pathsNodup_batch b t h)
  · exact pathsOf_batch_absorbed b _ (fun pf hpf => mem_pathsOf_batch b t pf hpf)
  · intro p
    rw [valAt_batch b (reconcileBatch t b) p, valAt_batch b t p]
    cases hl : lastMatch b p <;> rfl

/-! ## Lemmas about the rollup store -/

theorem any_vsKey_iff (t : List VolumeStatistics) (r : VolumeStatistics) :
    (t.any (fun x => vsKey x == vsKey r) = true) ↔ vsKey r ∈ t.map vsKey := by
  rw [List.any_eq_true, List.mem_map]
  constructor
  · rintro ⟨x, hx, he⟩
    exact ⟨x, hx, beq_iff_eq.mp he⟩
  · rintro ⟨x, hx, he⟩
    exact ⟨x, hx, beq_iff_eq.mpr he⟩

/-! ## Lemmas about the crawl control flow -/

theorem runCombos_fst_cons (env : Bool → Bool → CombOutcome α) (c : Bool × Bool)
    (rest : List (Bool × Bool)) :
    (runCombos env (c :: rest)).1 =
      match env c.1 c.2 with
      | CombOutcome.denied => Except.error CrawlError.permissionDenied
      | CombOutcome.found fs => (runCombos env rest).1.map (fun more => fs ++ more)
      | _ => (runCombos env rest).1 := by
  cases he : env c.1 c.2 <;> simp [runCombos, parse_subject_files_by_type, he]

theorem runCombos_snd_cons (env : Bool → Bool → CombOutcome α) (c : Bool × Bool)
    (rest : List (Bool × Bool)) :
    (runCombos env (c :: rest)).2 =
      match env c.1 c.2 with
      | CombOutcome.unknownStudy => LogMsg.subjectMissing :: (runCombos env rest).2
      | CombOutcome.missingDir =>
          (if !c.1 && c.2 then [] else [LogMsg.noData c.1 c.2]) ++
            (runCombos env rest).2
      | CombOutcome.denied => []
      | CombOutcome.found _ => (runCombos env rest).2 := by
  cases he : env c.1 c.2 <;> simp [runCombos, parse_subject_files_by_type, he]

theorem runCombos_fst_no_denied (env : Bool → Bool → CombOutcome α) :
    ∀ cs : List (Bool × Bool), (∀ c ∈ cs, env c.1 c.2 ≠ CombOutcome.denied) →
      (runCombos env cs).1 =
        Except.ok ((cs.map (specContribution env)).flatten) := by
  intro cs
  induction cs with
  | nil => intro _; rfl
  | cons c rest ih =>
    intro h
    have hrest : ∀ x ∈ rest, env x.1 x.2 ≠ CombOutcome.denied :=
      fun x hx => h x (List.mem_cons_of_mem _ hx)
    rw [runCombos_fst_cons]
    cases he : env c.1 c.2 with
    | denied => exact absurd he (h c (List.mem_cons_self _ _))
    | unknownStudy => simp [ih hrest, specContribution, he]
    | missingDir => simp [ih hrest, specContribution, he]
    | found fs => simp [ih hrest, specContribution, he, Except.map]

theorem runCombos_snd_clean (env : Bool → Bool → CombOutcome α) :
    ∀ cs : List (Bool × Bool),
      (∀ c ∈ cs, env c.1 c.2 ≠ CombOutcome.denied ∧
        env c.1 c.2 ≠ CombOutcome.unknownStudy) →
      (runCombos env cs).2 =
        (cs.filter (specMissingLogged env)).map
          (fun c => LogMsg.noData c.1 c.2) := by
  intro cs
  induction cs with
  | nil => intro _; rfl
  | cons c rest ih =>
    intro h
    have hrest := fun x hx => h x (List.mem_cons_of_mem _ hx)
    rw [runCombos_snd_cons]
    cases he : env c.1 c.2 with
    | denied => exact absurd he (h c (List.mem_cons_self _ _)).1
    | unknownStudy => exact absurd he (h c (List.mem_cons_self _ _)).2
    | found fs => simp [ih hrest, specMissingLogged, he, List.filter_cons]
    | missingDir =>
      rw [ih hrest]
      cases hb : (!c.1 && c.2) <;>
        simp [List.filter_cons, specMissingLogged, he, hb]

theorem importRun_clean (envs : List (Bool → Bool → CombOutcome α)) :
    (∀ env ∈ envs, ∀ c ∈ allCombos, env c.1 c.2 ≠ CombOutcome.denied) →
    importRun envs =
      Except.ok ((envs.map (fun env =>
        (allCombos.map (specContribution env)).flatten)).flatten) := by
  induction envs with
  | nil => intro _; rfl
  | cons e rest ih =>
    intro h
    have he := runCombos_fst_no_denied e allCombos
      (fun c hc => h e (List.mem_cons_self _ _) c hc)
    have hr := ih (fun env henv c hc => h env (List.mem_cons_of_mem _ henv) c hc)
    simp only [importRun, parse_subject_files, he, hr, List.map_cons,
      List.flatten_cons]

theorem importRun_aborts (pre : List (Bool → Bool → CombOutcome α)) :
    ∀ (env : Bool → Bool → CombOutcome α)
      (post : List (Bool → Bool → CombOutcome α)),
      (∀ e ∈ pre, ∀ c ∈ allCombos, e c.1 c.2 ≠ CombOutcome.denied) →
      (parse_subject_files env).1 = Except.error CrawlError.permissionDenied →
      importRun (pre ++ env :: post) =
        Except.error CrawlError.permissionDenied := by
  induction pre with
  | nil =>
    intro env post _ hp
    simp only [List.nil_append, importRun, hp]
  | cons e rest ih =>
    intro env post h hp
    have he := runCombos_fst_no_denied e allCombos
      (fun c hc => h e (List.mem_cons_self _ _) c hc)
    have hr := ih env post (fun x hx c hc => h x (List.mem_cons_of_mem _ hx) c hc) hp
    simp only [List.cons_append, importRun, parse_subject_files, he, List.append_eq,
      hr]

/-! ## Lemmas about the file enumerator -/

theorem enumerator_pairs (subject study mname : String) (ip ir : Bool)
    (now : Nat) (contents : FsForest) :
    ∀ d : String,
      (rglobForest d contents).filterMap (fun nd =>
        match nd.size with
        | some sz =>
            some (({ file_path := nd.path, file_size := sz, md5 := none } :
                      FileRec),
                  ({ study_id := study, subject_id := subject,
                     file_path := nd.path, is_raw := ir, is_protected := ip,
                     modality := mname, extracted_timestamp := now,
                     metadata := [] } : PhoenixFile))
        | none => none) =
      (specRegularFiles d contents).map
        (fun f => ({ file_path := f.1, file_size := f.2, md5 := none },
                   { study_id := study, subject_id := subject, file_path := f.1,
                     is_raw := ir, is_protected := ip, modality := mname,
                     extracted_timestamp := now, metadata := [] })) := by
  induction contents with
  | nil => intro d; rfl
  | fileCons n sz rest ih =>
    intro d
    simp only [rglobForest, specRegularFiles, List.filterMap_cons, List.map_cons,
      ih d]
  | dirCons n cs rest ihcs ihrest =>
    intro d
    simp only [rglobForest, specRegularFiles, List.filterMap_cons,
      List.filterMap_append, List.map_append, ihcs, ihrest]

/-! ## Lemmas about the delta report -/

theorem reportFlags_interviews : reportFlags "interviews" = (false, false) := rfl

theorem reportFlags_other (m : String) (h : m ≠ "interviews") :
    reportFlags m = (true, true) := by
  unfold reportFlags
  rw [if_neg (by simpa using h)]

/-! ## Lemmas about the statistics aggregator -/

theorem flatMap_eq_of_single {α β : Type} [DecidableEq α] (l : List α)
    (g : α → List β) (a : α) (hnd : l.Nodup)
    (hz : ∀ x ∈ l, x ≠ a → g x = []) :
    l.flatMap g = if a ∈ l then g a else [] := by
  induction l with
  | nil => simp
  | cons x xs ih =>
    rw [List.flatMap_cons]
    have hnd' := List.nodup_cons.mp hnd
    by_cases hxa : x = a
    · subst hxa
      rw [if_pos (List.mem_cons_self _ _)]
      have hz' : xs.flatMap g = [] :=
        List.flatMap_eq_nil_iff.mpr
          (fun y hy => hz y (List.mem_cons_of_mem _ hy)
            (fun he => hnd'.1 (he ▸ hy)))
      rw [hz', List.append_nil]
    · rw [hz x (List.mem_cons_self _ _) hxa, List.nil_append,
        ih hnd'.2 (fun y hy hne => hz y (List.mem_cons_of_mem _ hy) hne)]
      by_cases ha : a ∈ xs
      · rw [if_pos ha, if_pos (List.mem_cons_of_mem _ ha)]
      · rw [if_neg ha, if_neg (fun hc =>
          (List.mem_cons.mp hc).elim (fun h => hxa h.symm) ha)]

theorem phone_sensor_eq : "phone" ++ "_" ++ "sensor" = "phone_sensor" := rfl

theorem phone_activity_eq : "phone" ++ "_" ++ "activity" = "phone_activity" := rfl

theorem surveys_upenn_eq : "surveys" ++ "_" ++ "UPENN" = "surveys_UPENN" := rfl

theorem surveys_mgb_eq : "surveys" ++ "_" ++ "MGB" = "surveys_MGB" := rfl

theorem subTypesFor_cases (m : String) (kv : String × String)
    (h : kv ∈ subTypesFor m) :
    (m = "phone" ∧ (kv = ("mindlamp_type", "sensor") ∨
       kv = ("mindlamp_type", "activity"))) ∨
    (m = "surveys" ∧ (kv = ("redcap_instance", "UPENN") ∨
       kv = ("redcap_instance", "MGB"))) := by
  unfold subTypesFor at h
  by_cases hp : (m == "phone") = true
  · rw [if_pos hp] at h
    exact Or.inl ⟨beq_iff_eq.mp hp, by simpa using h⟩
  · rw [if_neg hp] at h
    by_cases hsv : (m == "surveys") = true
    · rw [if_pos hsv] at h
      exact Or.inr ⟨beq_iff_eq.mp hsv, by simpa using h⟩
    · rw [if_neg hsv] at h
      cases h

theorem mem_subTypeRows (db : List PhoenixRow) (so : Option String)
    (subject m : String) (r : StatRow)
    (hr : r ∈ subTypeRows db so subject m) :
    ∃ kv ∈ subTypesFor m, r = subTypeStatRow db so subject m kv.1 kv.2 := by
  unfold subTypeRows at hr
  rcases List.mem_flatMap.mp hr with ⟨kv, hkv, hin⟩
  refine ⟨kv, hkv, ?_⟩
  split at hin
  · cases hin
  · rw [List.mem_singleton] at hin
    exact hin

theorem subTypeStatRow_modality (db : List PhoenixRow) (so : Option String)
    (subject m key value : String) :
    (subTypeStatRow db so subject m key value).modality = m ++ "_" ++ value :=
  rfl

theorem subTypeRows_modality_mem (db : List PhoenixRow) (so : Option String)
    (subject m : String) (r : StatRow)
    (hr : r ∈ subTypeRows db so subject m) :
    r.modality ∈ synthModalities := by
  rcases mem_subTypeRows db so subject m r hr with ⟨kv, hkv, he⟩
  subst he
  rcases subTypesFor_cases m kv hkv with ⟨hm, hkv2⟩ | ⟨hm, hkv2⟩ <;>
    subst hm <;> rcases hkv2 with h2 | h2 <;> subst h2 <;>
    simp [subTypeStatRow, synthModalities, phone_sensor_eq, phone_activity_eq,
      surveys_upenn_eq, surveys_mgb_eq]

theorem mem_partitionRows (db : List PhoenixRow) (so : Option String)
    (subject m : String) (a b : Bool) (r : StatRow)
    (hr : r ∈ partitionRows db so subject m a b) :
    r = partitionStatRow db so subject m a b ∨
      r ∈ subTypeRows db so subject m := by
  unfold partitionRows at hr
  split at hr
  · cases hr
  · rcases List.mem_cons.mp hr with h | h
    · exact Or.inl h
    · split at h
      · exact Or.inr h
      · cases h

theorem filter_subTypeRows_nil (db : List PhoenixRow) (so : Option String)
    (subject m mq : String) (ip ir : Bool) (hmq : mq ∉ synthModalities) :
    (subTypeRows db so subject m).filter (statKeyPred mq ip ir) = [] := by
  rw [List.filter_eq_nil_iff]
  intro r hr hc
  have hmem := subTypeRows_modality_mem db so subject m r hr
  simp only [statKeyPred, Bool.and_eq_true, beq_iff_eq] at hc
  exact hmq (hc.1.1 ▸ hmem)

theorem filter_partitionRows_key (db : List PhoenixRow) (so : Option String)
    (subject m : String) (a b : Bool) (mq : String) (ip ir : Bool)
    (hmq : mq ∉ synthModalities) :
    (partitionRows db so subject m a b).filter (statKeyPred mq ip ir) =
      if m = mq ∧ a = ip ∧ b = ir then
        (if (partitionFiles db so subject m a b).isEmpty then []
         else [partitionStatRow db so subject m a b])
      else [] := by
  unfold partitionRows
  by_cases hemp : (partitionFiles db so subject m a b).isEmpty
  · simp [hemp]
  · rw [if_neg hemp]
    have htail :
        ((if a && b then subTypeRows db so subject m else []).filter
          (statKeyPred mq ip ir)) = [] := by
      split
      · exact filter_subTypeRows_nil db so subject m mq ip ir hmq
      · rfl
    rw [List.filter_cons, htail]
    have hhead : (statKeyPred mq ip ir (partitionStatRow db so subject m a b)
        = true) ↔ (m = mq ∧ a = ip ∧ b = ir) := by
      simp [statKeyPred, partitionStatRow, and_assoc]
    by_cases hcond : m = mq ∧ a = ip ∧ b = ir
    · rw [if_pos (hhead.mpr hcond), if_pos hcond, if_neg hemp]
    · rw [if_neg (fun hc => hcond (hhead.mp hc)), if_neg hcond]

theorem filter_modalityRows_key (db : List PhoenixRow) (so : Option String)
    (subject m mq : String) (ip ir : Bool) (hmq : mq ∉ synthModalities) :
    (modalityRows db so subject m).filter (statKeyPred mq ip ir) =
      if m = mq then
        (if (partitionFiles db so subject m ip ir).isEmpty then []
         else [partitionStatRow db so subject m ip ir])
      else [] := by
  unfold modalityRows
  rw [List.filter_flatMap]
  simp only [allCombos, List.flatMap_cons, List.flatMap_nil, List.append_nil]
  rw [filter_partitionRows_key db so subject m true true mq ip ir hmq,
    filter_partitionRows_key db so subject m true false mq ip ir hmq,
    filter_partitionRows_key db so subject m false true mq ip ir hmq,
    filter_partitionRows_key db so subject m false false mq ip ir hmq]
  by_cases hm : m = mq
  · subst hm
    cases ip <;> cases ir <;> simp
  · simp [hm]

theorem modalities_nodup (db : List PhoenixRow) (so : Option String)
    (subject : String) : (get_subject_modalities db so subject).Nodup := by
  unfold get_subject_modalities
  exact List.nodup_dedup _

theorem mem_modalities_of_row (db : List PhoenixRow) (so : Option String)
    (subject : String) (r : PhoenixRow) (hr : r ∈ db)
    (hs : rowForSubject so subject r = true) :
    r.modality ∈ get_subject_modalities db so subject := by
  unfold get_subject_modalities
  rw [List.mem_dedup, List.mem_map]
  exact ⟨r, List.mem_filter.mpr ⟨hr, hs⟩, rfl⟩

theorem modalities_exists_row (db : List PhoenixRow) (so : Option String)
    (subject m : String) (hm : m ∈ get_subject_modalities db so subject) :
    ∃ r ∈ db, rowForSubject so subject r = true ∧ r.modality = m := by
  unfold get_subject_modalities at hm
  rw [List.mem_dedup, List.mem_map] at hm
  rcases hm with ⟨r, hr, he⟩
  have h2 := List.mem_filter.mp hr
  exact ⟨r, h2.1, h2.2, he⟩

theorem modality_files_nil_of_not_mem (db : List PhoenixRow) (so : Option String)
    (subject mq : String) (h : mq ∉ get_subject_modalities db so subject) :
    get_subject_modality_files db so subject mq = [] := by
  unfold get_subject_modality_files
  rw [List.filter_eq_nil_iff]
  intro r hr hc
  rw [Bool.and_eq_true] at hc
  exact h (beq_iff_eq.mp hc.2 ▸ mem_modalities_of_row db so subject r hr hc.1)

theorem filter_process_subject_key (subjects : List (String × String))
    (db : List PhoenixRow) (subject mq : String) (ip ir : Bool)
    (hmq : mq ∉ synthModalities) :
    (process_subject subjects db subject).filter (statKeyPred mq ip ir) =
      (if (partitionFiles db (get_subject_study_id subjects subject) subject mq
            ip ir).isEmpty then []
       else [partitionStatRow db (get_subject_study_id subjects subject)
              subject mq ip ir]) := by
  unfold process_subject
  rw [List.filter_flatMap]
  rw [flatMap_eq_of_single _ _ mq
    (modalities_nodup db (get_subject_study_id subjects subject) subject)
    (fun m hm hne => by
      rw [filter_modalityRows_key db _ subject m mq ip ir hmq, if_neg hne])]
  by_cases hmem : mq ∈ get_subject_modalities db
      (get_subject_study_id subjects subject) subject
  · rw [if_pos hmem,
      filter_modalityRows_key db _ subject mq mq ip ir hmq, if_pos rfl]
  · rw [if_neg hmem]
    have hnil := modality_files_nil_of_not_mem db
      (get_subject_study_id subjects subject) subject mq hmem
    have hpf : partitionFiles db (get_subject_study_id subjects subject)
        subject mq ip ir = [] := by
      unfold partitionFiles
      rw [hnil]
      rfl
    rw [hpf]
    rfl

theorem filter_partitionRows_modality (db : List PhoenixRow) (so : Option String)
    (subject m : String) (a b : Bool) (mq : String) (hbase : m ≠ mq) :
    (partitionRows db so subject m a b).filter (fun r => r.modality == mq) =
      if (partitionFiles db so subject m a b).isEmpty then []
      else if a && b then
        (subTypeRows db so subject m).filter (fun r => r.modality == mq)
      else [] := by
  unfold partitionRows
  by_cases hemp : (partitionFiles db so subject m a b).isEmpty
  · simp [hemp]
  · rw [if_neg hemp, if_neg hemp, List.filter_cons,
      if_neg (by simp [partitionStatRow]; exact hbase)]
    cases hab : (a && b) <;> simp

theorem filter_modalityRows_modality (db : List PhoenixRow) (so : Option String)
    (subject m mq : String) (hbase : m ≠ mq) :
    (modalityRows db so subject m).filter (fun r => r.modality == mq) =
      if (partitionFiles db so subject m true true).isEmpty then []
      else (subTypeRows db so subject m).filter (fun r => r.modality == mq) := by
  unfold modalityRows
  rw [List.filter_flatMap]
  simp only [allCombos, List.flatMap_cons, List.flatMap_nil, List.append_nil]
  rw [filter_partitionRows_modality db so subject m true true mq hbase,
    filter_partitionRows_modality db so subject m true false mq hbase,
    filter_partitionRows_modality db so subject m false true mq hbase,
    filter_partitionRows_modality db so subject m false false mq hbase]
  simp

theorem subTypeRows_filter_nil_of_ne_phone (db : List PhoenixRow)
    (so : Option String) (subject m mq : String) (hm : m ≠ "phone")
    (hmq : mq = "phone_sensor" ∨ mq = "phone_activity") :
    (subTypeRows db so subject m).filter (fun r => r.modality == mq) = [] := by
  rw [List.filter_eq_nil_iff]
  intro r hr hc
  rcases mem_subTypeRows db so subject m r hr with ⟨kv, hkv, he⟩
  subst he
  rcases subTypesFor_cases m kv hkv with ⟨hmp, _⟩ | ⟨hms, hkv2⟩
  · exact hm hmp
  · subst hms
    rw [beq_iff_eq, subTypeStatRow_modality] at hc
    rcases hkv2 with h2 | h2 <;> subst h2 <;>
      rcases hmq with h3 | h3 <;> subst h3 <;>
      simp [surveys_upenn_eq, surveys_mgb_eq] at hc

theorem subTypeRows_phone (db : List PhoenixRow) (so : Option String)
    (subject : String) :
    subTypeRows db so subject "phone" =
      (if (get_subject_modality_files_by_metadata db so subject "phone"
          "mindlamp_type" "sensor").isEmpty then []
       else [subTypeStatRow db so subject "phone" "mindlamp_type" "sensor"]) ++
      (if (get_subject_modality_files_by_metadata db so subject "phone"
          "mindlamp_type" "activity").isEmpty then []
       else [subTypeStatRow db so subject "phone" "mindlamp_type"
              "activity"]) := by
  unfold subTypeRows subTypesFor
  simp

theorem metadata_files_eq_filter (db : List PhoenixRow) (so : Option String)
    (subject m key value : String) :
    get_subject_modality_files_by_metadata db so subject m key value =
      (get_subject_modality_files db so subject m).filter
        (fun r => metadataMatches r.metadata key value) := by
  unfold get_subject_modality_files_by_metadata get_subject_modality_files
  rw [List.filter_filter]
  apply List.filter_congr
  intro r _
  cases rowForSubject so subject r <;> cases (r.modality == m) <;>
    cases metadataMatches r.metadata key value <;> rfl

theorem length_filter_disjoint {α : Type} (l : List α) (p q : α → Bool)
    (h : ∀ a ∈ l, ¬(p a = true ∧ q a = true)) :
    (l.filter p).length + (l.filter q).length ≤ l.length := by
  induction l with
  | nil => simp
  | cons x xs ih =>
    have hx := h x (List.mem_cons_self _ _)
    have ih' := ih (fun a ha => h a (List.mem_cons_of_mem _ ha))
    rw [List.filter_cons, List.filter_cons]
    by_cases hp : p x = true
    · have hq : ¬q x = true := fun hq => hx ⟨hp, hq⟩
      rw [if_pos hp, if_neg hq]
      simp only [List.length_cons]
      omega
    · by_cases hq : q x = true
      · rw [if_neg hp, if_pos hq]
        simp only [List.length_cons]
        omega
      · rw [if_neg hp, if_neg hq]
        simp only [List.length_cons]
        omega

theorem partitionFiles_mem (db : List PhoenixRow) (so : Option String)
    (subject m : String) (ip ir : Bool) (r : PhoenixRow)
    (hr : r ∈ partitionFiles db so subject m ip ir) :
    r ∈ get_subject_modality_files db so subject m ∧
      r ∈ db ∧ rowForSubject so subject r = true ∧ r.modality = m := by
  unfold partitionFiles at hr
  have h1 := List.mem_filter.mp hr
  have h2 := List.mem_filter.mp h1.1
  rw [Bool.and_eq_true] at h2
  exact ⟨h1.1, h2.1, h2.2.1, beq_iff_eq.mp h2.2.2⟩

theorem modality_files_subset (db : List PhoenixRow) (so : Option String)
    (subject m : String) (r : PhoenixRow)
    (hr : r ∈ get_subject_modality_files db so subject m) : r ∈ db := by
  unfold get_subject_modality_files at hr
  exact (List.mem_filter.mp hr).1

theorem sensor_beq_activity :
    (("phone_sensor" : String) == "phone_activity") = false := by decide

theorem activity_beq_sensor :
    (("phone_activity" : String) == "phone_sensor") = false := by decide

/-! ## Claims -/

/-- Claim C1: the Metadata Reconciler's generated upsert is idempotent and
keyed by file path.  When the path is new the row is appended; when the
path exists all mutable columns take the incoming row's values while the
`file_path` key column is unchanged (the key set is preserved, the row
stored under the key becomes the incoming row, and rows with other paths
survive untouched); the primary-key invariant is preserved by a whole
batch; and applying the same batch twice produces exactly the table that
applying it once produces, so no duplicate rows per path ever appear. -/
theorem upsert_idempotent_keyed_by_path (t b : List PhoenixFile)
    (pf : PhoenixFile) (h : pathsNodup t) :
    (pf.file_path ∉ pathsOf t → upsertPhoenixFile t pf = t ++ [pf]) ∧
    (pf.file_path ∈ pathsOf t →
      pathsOf (upsertPhoenixFile t pf) = pathsOf t ∧
      valAt (upsertPhoenixFile t pf) pf.file_path = some pf ∧
      ∀ r ∈ t, r.file_path ≠ pf.file_path → r ∈ upsertPhoenixFile t pf) ∧
    pathsNodup (reconcileBatch t b) ∧
    reconcileBatch (reconcileBatch t b) b = reconcileBatch t b := by
  refine ⟨upsert_of_not_mem t pf, fun hm => ⟨?_, ?_, ?_⟩,
    pathsNodup_batch b t h, reconcileBatch_idem t b h⟩
  · rw [pathsOf_upsert, if_pos hm]
  · rw [valAt_upsert, if_pos rfl]
  · intro r hr hne
    rw [upsert_of_mem t pf hm]
    exact List.mem_map.mpr ⟨r, hr, updateRow_of_ne pf r hne⟩

/-- Concrete instance of C1: re-applying a batch that updates `/data/a.csv`
and inserts `/data/b.csv` leaves the table unchanged. -/
theorem upsert_idempotent_keyed_by_path_witness :
    reconcileBatch (reconcileBatch [wpfA] [wpfA2, wpfB]) [wpfA2, wpfB] =
      reconcileBatch [wpfA] [wpfA2, wpfB] :=
  (upsert_idempotent_keyed_by_path [wpfA] [wpfA2, wpfB] wpfA2 (by decide)).2.2.2

/-- Claim C3 fails on the code: `parse_subject_files` catches only
`FileNotFoundError`, so a permission error raised while processing one
subject propagates through the pool and aborts the whole run — here a run
over a healthy subject and a permission-denied subject returns the error
instead of the healthy subject's files. -/
theorem crawl_permission_error_aborts_counterexample :
    importRun [envAllFound, envDenied] =
      Except.error CrawlError.permissionDenied := rfl

/-- Claim C3 (amended): per-combination `FileNotFoundError` conditions are
tolerated — a run whose subjects raise at most `FileNotFoundError`
completes with every subject's found files merged — but an unexpected
error such as a permission error in any single subject propagates and
aborts the whole run; no failed-subject count is reported. -/
theorem crawl_error_aborts_run {α : Type}
    (envs : List (Bool → Bool → CombOutcome α)) :
    ((∀ env ∈ envs, ∀ c ∈ allCombos, env c.1 c.2 ≠ CombOutcome.denied) →
      importRun envs = Except.ok ((envs.map (fun env =>
        (allCombos.map (specContribution env)).flatten)).flatten)) ∧
    (∀ pre env post, envs = pre ++ env :: post →
      (∀ e ∈ pre, ∀ c ∈ allCombos, e c.1 c.2 ≠ CombOutcome.denied) →
      (parse_subject_files env).1 = Except.error CrawlError.permissionDenied →
      importRun envs = Except.error CrawlError.permissionDenied) := by
  refine ⟨importRun_clean envs, ?_⟩
  intro pre env post heq h1 h2
  rw [heq]
  exact importRun_aborts pre env post h1 h2

/-- Concrete instance of C3 (amended): a run containing one
permission-denied subject returns the permission error. -/
theorem crawl_error_aborts_run_witness :
    importRun [envDenied] = Except.error CrawlError.permissionDenied :=
  (crawl_error_aborts_run [envDenied]).2 [] envDenied [] rfl
    (fun e he => absurd he (List.not_mem_nil e)) rfl

/-- Claim C4: the `volume_statistics` store is append-only.  Inserting a
row whose composite key `(study_id, subject_id, is_raw, is_protected,
modality, statistics_timestamp)` is already present is rejected with a
unique-key violation rather than overwriting; inserting a fresh key appends
the row, leaving every existing row in place and preserving the invariant
that no two rows share the key. -/
theorem volume_statistics_append_only (t : List VolumeStatistics)
    (r : VolumeStatistics) (h : vsKeysNodup t) :
    (vsKey r ∈ t.map vsKey →
      insertVolumeStatistics t r = Except.error SqlError.uniqueViolation) ∧
    (vsKey r ∉ t.map vsKey →
      insertVolumeStatistics t r = Except.ok (t ++ [r]) ∧
      vsKeysNodup (t ++ [r])) := by
  constructor
  · intro hm
    unfold insertVolumeStatistics
    rw [if_pos ((any_vsKey_iff t r).mpr hm)]
  · intro hm
    constructor
    · unfold insertVolumeStatistics
      rw [if_neg (fun hc => hm ((any_vsKey_iff t r).mp hc))]
    · unfold vsKeysNodup
      rw [show List.map vsKey (t ++ [r]) = List.map vsKey t ++ [vsKey r] by
        simp]
      rw [List.nodup_append]
      exact ⟨h, List.nodup_singleton _,
        fun a ha hb => hm ((List.mem_singleton.mp hb) ▸ ha)⟩

/-- Concrete instance of C4: re-inserting the `mri` statistics row with the
same timestamp and key but different counts is rejected. -/
theorem volume_statistics_append_only_witness :
    insertVolumeStatistics [wvs1] wvs1b =
      Except.error SqlError.uniqueViolation :=
  (volume_statistics_append_only [wvs1] wvs1b (by decide)).1 (by decide)

/-- Claim C5: every `VolumeStatistics` row persisted by one
`compute_statistics` run carries the single `timestamp` taken once after
the per-subject results are merged, and one row is persisted per merged
result. -/
theorem statistics_run_single_timestamp (perSubject : List (List StatRow))
    (now : Nat) :
    (∀ v ∈ compute_statistics_rows perSubject now,
      v.statistics_timestamp = now) ∧
    (compute_statistics_rows perSubject now).length =
      perSubject.flatten.length := by
  constructor
  · intro v hv
    rcases List.mem_map.mp hv with ⟨r, _, he⟩
    rw [← he]
    rfl
  · exact List.length_map _ _

/-- Concrete instance of C5: the row persisted for `wStat` in a run stamped
7 carries timestamp 7. -/
theorem statistics_run_single_timestamp_witness :
    (statToVolume 7 wStat).statistics_timestamp = 7 :=
  (statistics_run_single_timestamp [[wStat]] 7).1 (statToVolume 7 wStat)
    (by decide)

/-- Claim C6: for a modality directory, the File Enumerator yields exactly
one `(File, ClassifiedFile)` pair per regular file reachable by recursive
traversal beneath it — directories yield no pair — and each
`ClassifiedFile` is stamped with the subject, study, the modality
directory's own name, the partition's protection and stage flags, the
current wall-clock time, and an empty metadata map, while the `File` record
carries no hash. -/
theorem enumerator_one_pair_per_regular_file (subject study : String)
    (parentPath mname : String) (contents : FsForest) (ip ir : Bool)
    (now : Nat) :
    parse_subject_files_by_modality_root subject study parentPath mname
        contents ip ir now =
      (specRegularFiles (parentPath ++ "/" ++ mname) contents).map
        (fun f => ({ file_path := f.1, file_size := f.2, md5 := none },
                   { study_id := study, subject_id := subject,
                     file_path := f.1, is_raw := ir, is_protected := ip,
                     modality := mname, extracted_timestamp := now,
                     metadata := [] })) := by
  unfold parse_subject_files_by_modality_root
  exact enumerator_pairs subject study mname ip ir now contents
    (parentPath ++ "/" ++ mname)

/-- Claim C7: a subject crawl free of unexpected errors attempts all four
protection/stage combinations, a missing combination contributes zero
files without failing the subject, and the missing-directory message is
printed exactly for the missing combinations other than general+raw, which
is suppressed. -/
theorem crawl_all_four_combos_missing_logged {α : Type}
    (env : Bool → Bool → CombOutcome α)
    (h : ∀ c ∈ allCombos, env c.1 c.2 ≠ CombOutcome.denied ∧
      env c.1 c.2 ≠ CombOutcome.unknownStudy) :
    parse_subject_files env =
      (Except.ok ((allCombos.map (specContribution env)).flatten),
       (allCombos.filter (specMissingLogged env)).map
         (fun c => LogMsg.noData c.1 c.2)) := by
  unfold parse_subject_files
  refine Prod.ext ?_ ?_
  · exact runCombos_fst_no_denied env allCombos (fun c hc => (h c hc).1)
  · exact runCombos_snd_clean env allCombos h

/-- Concrete instance of C7: with data only in protected+raw, a missing
protected+processed directory and a missing general+raw directory, the
files of the existing combination are returned and only the
protected+processed message is logged. -/
theorem crawl_all_four_combos_missing_logged_witness :
    parse_subject_files envMixed =
      (Except.ok [5], [LogMsg.noData true false]) := by
  have h := crawl_all_four_combos_missing_logged envMixed (by decide)
  rw [h]
  rfl

/-- Claim C8: the Statistics Aggregator's output is sparse — for any
modality that the sub-type loop cannot synthesize, the output holds a row
for a protection/stage combination exactly when at least one file matches
that combination, and the unique such row counts the matching files and
sums their sizes. -/
theorem sparse_aggregation (subjects : List (String × String))
    (db : List PhoenixRow) (subject mq : String) (ip ir : Bool)
    (hmq : mq ∉ synthModalities) :
    (process_subject subjects db subject).filter (statKeyPred mq ip ir) =
      (if (partitionFiles db (get_subject_study_id subjects subject) subject
            mq ip ir).isEmpty then []
       else [partitionStatRow db (get_subject_study_id subjects subject)
              subject mq ip ir]) :=
  filter_process_subject_key subjects db subject mq ip ir hmq

/-- Concrete instance of C8: a subject with only `phone` files yields no
`mri` row. -/
theorem sparse_aggregation_witness :
    (process_subject wSubjects cexDb "S1").filter
      (statKeyPred "mri" true true) = [] := by
  have h := sparse_aggregation wSubjects cexDb "S1" "mri" true true
    (by decide)
  rw [h]
  rfl

/-- Claim C9: every delta entry of the report equals the sum of
`files_count` over the rollup rows matching the later timestamp, modality,
network, and the report's partition flags, minus the same sum at the
earlier timestamp (and analogously for size), and a zero delta in either
metric sets the data-flow-issue flag. -/
theorem delta_report_sum_difference (vs : List VolumeStatistics)
    (study : List (String × String)) (modalities : List String) (t1 t2 : Nat)
    (n m : String) (h12 : t1 < t2) (hn : n ∈ reportNetworks)
    (hm : m ∈ modalities) :
    deltaRowFor vs study t1 t2 n m ∈
        (construct_report vs study modalities t1 t2).1 ∧
    (deltaRowFor vs study t1 t2 n m).delta_files =
      (sumFilesCount vs study t2 m n (reportFlags m).1 (reportFlags m).2 :
          Int) -
      (sumFilesCount vs study t1 m n (reportFlags m).1 (reportFlags m).2 :
          Int) ∧
    (deltaRowFor vs study t1 t2 n m).delta_size =
      (sumFilesSize vs study t2 m n (reportFlags m).1 (reportFlags m).2 :
          Int) -
      (sumFilesSize vs study t1 m n (reportFlags m).1 (reportFlags m).2 :
          Int) ∧
    ((deltaRowFor vs study t1 t2 n m).delta_files = 0 ∨
      (deltaRowFor vs study t1 t2 n m).delta_size = 0 →
      (construct_report vs study modalities t1 t2).2 = true) := by
  have hmem : deltaRowFor vs study t1 t2 n m ∈
      (construct_report vs study modalities t1 t2).1 := by
    unfold construct_report
    exact List.mem_flatMap.mpr ⟨n, hn, List.mem_map.mpr ⟨m, hm, rfl⟩⟩
  refine ⟨hmem, rfl, rfl, ?_⟩
  intro hz
  unfold construct_report
  rw [List.any_eq_true]
  refine ⟨deltaRowFor vs study t1 t2 n m,
    List.mem_flatMap.mpr ⟨n, hn, List.mem_map.mpr ⟨m, hm, rfl⟩⟩, ?_⟩
  rcases hz with hz | hz <;> simp [hz]

/-- Concrete instance of C9: with `mri` counts 100 at timestamp 1 and 140
at timestamp 2 for network ProNET, the reported delta is 40. -/
theorem delta_report_sum_difference_witness :
    (deltaRowFor [wvsT1, wvsT2] wStudies 1 2 "ProNET" "mri").delta_files =
      (40 : Int) := by
  have h := (delta_report_sum_difference [wvsT1, wvsT2] wStudies ["mri"] 1 2
    "ProNET" "mri" (by decide) (by decide) (by decide)).2.1
  rw [h]
  decide

/-- Claim C10: in the delta report the `interviews` modality is the sole
exception to the protected+raw filter — its sums range over rows with
`is_protected = false` and `is_raw = false`, while every other modality's
sums range over rows with `is_protected = true` and `is_raw = true`. -/
theorem interviews_general_processed_exception (vs : List VolumeStatistics)
    (study : List (String × String)) (t1 t2 : Nat) (n m : String)
    (hm : m ≠ "interviews") :
    (deltaRowFor vs study t1 t2 n "interviews").delta_files =
      (sumFilesCount vs study t2 "interviews" n false false : Int) -
      (sumFilesCount vs study t1 "interviews" n false false : Int) ∧
    (deltaRowFor vs study t1 t2 n "interviews").delta_size =
      (sumFilesSize vs study t2 "interviews" n false false : Int) -
      (sumFilesSize vs study t1 "interviews" n false false : Int) ∧
    (deltaRowFor vs study t1 t2 n m).delta_files =
      (sumFilesCount vs study t2 m n true true : Int) -
      (sumFilesCount vs study t1 m n true true : Int) ∧
    (deltaRowFor vs study t1 t2 n m).delta_size =
      (sumFilesSize vs study t2 m n true true : Int) -
      (sumFilesSize vs study t1 m n true true : Int) := by
  have hg := reportFlags_other m hm
  refine ⟨?_, ?_, ?_, ?_⟩ <;> simp [deltaRowFor, reportFlags_interviews, hg]

/-- Concrete instance of C10: the `mri` delta is computed over the
protected+raw rows. -/
theorem interviews_general_processed_exception_witness :
    (deltaRowFor [wvsT1, wvsT2] wStudies 1 2 "ProNET" "mri").delta_files =
      (sumFilesCount [wvsT1, wvsT2] wStudies 2 "mri" "ProNET" true true :
          Int) -
      (sumFilesCount [wvsT1, wvsT2] wStudies 1 "mri" "ProNET" true true :
          Int) :=
  (interviews_general_processed_exception [wvsT1, wvsT2] wStudies 1 2
    "ProNET" "mri" (by decide)).2.2.1

/-- Claim C2 fails on the code: the sub-type metadata query has no
protection/stage condition, so `phone_sensor`/`phone_activity` counts range
over all four partitions.  In `cexDb` the protected+raw phone partition has
2 files (one sensor, one activity) but two more sensor-tagged phone files
sit in general+processed, so the emitted sensor count (3) plus activity
count (1) exceeds the protected+raw `phone` row's `files_count` (2),
refuting the claimed inequality. -/
theorem phone_subtype_partition_counterexample :
    ¬((((process_subject wSubjects cexDb "S1").filter
          (fun r => r.modality == "phone_sensor")).map (·.files_count)).sum +
       (((process_subject wSubjects cexDb "S1").filter
          (fun r => r.modality == "phone_activity")).map
            (·.files_count)).sum ≤
       (((process_subject wSubjects cexDb "S1").filter
          (statKeyPred "phone" true true)).map (·.files_count)).sum) := by
  decide

/-- Claim C2 (amended): for a subject whose protected+raw phone partition
contains a sensor-tagged and an activity-tagged file (and whose store has
no file literally classified under the synthetic names), one run emits
exactly three protected+raw rows across the modalities `phone`,
`phone_sensor` and `phone_activity` — one row each — where each sub-type
row is computed by filtering ALL of the subject's phone files (across all
four partitions, not only protected+raw) on a substring match of the
metadata field; consequently, provided no single file matches both
sub-type filters, the sensor count plus the activity count is bounded by
the subject's total phone file count across all partitions, not by the
protected+raw `phone` row's count. -/
theorem phone_subtype_rows_all_partitions (subjects : List (String × String))
    (db : List PhoenixRow) (subject : String)
    (hsens : ∃ r ∈ partitionFiles db (get_subject_study_id subjects subject)
        subject "phone" true true,
        metadataMatches r.metadata "mindlamp_type" "sensor" = true)
    (hact : ∃ r ∈ partitionFiles db (get_subject_study_id subjects subject)
        subject "phone" true true,
        metadataMatches r.metadata "mindlamp_type" "activity" = true)
    (hcol : ∀ r ∈ db, r.modality ≠ "phone_sensor" ∧
        r.modality ≠ "phone_activity") :
    (process_subject subjects db subject).filter
        (statKeyPred "phone" true true) =
      [partitionStatRow db (get_subject_study_id subjects subject) subject
        "phone" true true] ∧
    (process_subject subjects db subject).filter
        (fun r => r.modality == "phone_sensor") =
      [subTypeStatRow db (get_subject_study_id subjects subject) subject
        "phone" "mindlamp_type" "sensor"] ∧
    (process_subject subjects db subject).filter
        (fun r => r.modality == "phone_activity") =
      [subTypeStatRow db (get_subject_study_id subjects subject) subject
        "phone" "mindlamp_type" "activity"] ∧
    ((∀ r ∈ db, ¬(metadataMatches r.metadata "mindlamp_type" "sensor" = true ∧
        metadataMatches r.metadata "mindlamp_type" "activity" = true)) →
      (get_subject_modality_files_by_metadata db
        (get_subject_study_id subjects subject) subject "phone"
        "mindlamp_type" "sensor").length +
      (get_subject_modality_files_by_metadata db
        (get_subject_study_id subjects subject) subject "phone"
        "mindlamp_type" "activity").length ≤
      (get_subject_modality_files db (get_subject_study_id subjects subject)
        subject "phone").length) := by
  obtain ⟨rs, hrs, hrsm⟩ := hsens
  obtain ⟨ra, hra, hram⟩ := hact
  have hsub := partitionFiles_mem db (get_subject_study_id subjects subject)
    subject "phone" true true rs hrs
  have hTTemp : ¬((partitionFiles db (get_subject_study_id subjects subject)
      subject "phone" true true).isEmpty = true) :=
    fun hc => List.ne_nil_of_mem hrs (List.isEmpty_iff.mp hc)
  have hsmem : rs ∈ get_subject_modality_files_by_metadata db
      (get_subject_study_id subjects subject) subject "phone"
      "mindlamp_type" "sensor" := by
    rw [metadata_files_eq_filter]
    exact List.mem_filter.mpr ⟨hsub.1, hrsm⟩
  have hamem : ra ∈ get_subject_modality_files_by_metadata db
      (get_subject_study_id subjects subject) subject "phone"
      "mindlamp_type" "activity" := by
    rw [metadata_files_eq_filter]
    exact List.mem_filter.mpr
      ⟨(partitionFiles_mem db _ subject "phone" true true ra hra).1, hram⟩
  have hsne : ¬((get_subject_modality_files_by_metadata db
      (get_subject_study_id subjects subject) subject "phone"
      "mindlamp_type" "sensor").isEmpty = true) :=
    fun hc => List.ne_nil_of_mem hsmem (List.isEmpty_iff.mp hc)
  have hane : ¬((get_subject_modality_files_by_metadata db
      (get_subject_study_id subjects subject) subject "phone"
      "mindlamp_type" "activity").isEmpty = true) :=
    fun hc => List.ne_nil_of_mem hamem (List.isEmpty_iff.mp hc)
  have hphonemem : "phone" ∈ get_subject_modalities db
      (get_subject_study_id subjects subject) subject := by
    have hmm := mem_modalities_of_row db (get_subject_study_id subjects subject)
      subject rs hsub.2.1 hsub.2.2.1
    rwa [hsub.2.2.2] at hmm
  have hzs : ∀ mq' : String, mq' = "phone_sensor" ∨ mq' = "phone_activity" →
      ∀ m ∈ get_subject_modalities db (get_subject_study_id subjects subject)
        subject, m ≠ "phone" →
      (modalityRows db (get_subject_study_id subjects subject) subject
        m).filter (fun r => r.modality == mq') = [] := by
    intro mq' hmq' m hm hne
    obtain ⟨r, hrdb, hrsub, hrm⟩ :=
      modalities_exists_row db (get_subject_study_id subjects subject)
        subject m hm
    have hbase : m ≠ mq' := by
      rw [← hrm]
      rcases hmq' with h' | h' <;> rw [h']
      · exact (hcol r hrdb).1
      · exact (hcol r hrdb).2
    rw [filter_modalityRows_modality db _ subject m mq' hbase,
      subTypeRows_filter_nil_of_ne_phone db _ subject m mq' hne hmq']
    exact ite_self []
  refine ⟨?_, ?_, ?_, ?_⟩
  · rw [filter_process_subject_key subjects db subject "phone" true true
      (by decide), if_neg hTTemp]
  · unfold process_subject
    rw [List.filter_flatMap,
      flatMap_eq_of_single _ _ "phone"
        (modalities_nodup db (get_subject_study_id subjects subject) subject)
        (hzs "phone_sensor" (Or.inl rfl)),
      if_pos hphonemem,
      filter_modalityRows_modality db _ subject "phone" "phone_sensor"
        (by decide),
      if_neg hTTemp, subTypeRows_phone, List.filter_append, if_neg hsne,
      if_neg hane]
    simp [subTypeStatRow_modality, phone_sensor_eq, phone_activity_eq,
      activity_beq_sensor]
  · unfold process_subject
    rw [List.filter_flatMap,
      flatMap_eq_of_single _ _ "phone"
        (modalities_nodup db (get_subject_study_id subjects subject) subject)
        (hzs "phone_activity" (Or.inr rfl)),
      if_pos hphonemem,
      filter_modalityRows_modality db _ subject "phone" "phone_activity"
        (by decide),
      if_neg hTTemp, subTypeRows_phone, List.filter_append, if_neg hsne,
      if_neg hane]
    simp [subTypeStatRow_modality, phone_sensor_eq, phone_activity_eq,
      sensor_beq_activity]
  · intro hd
    rw [metadata_files_eq_filter db _ subject "phone" "mindlamp_type" "sensor",
      metadata_files_eq_filter db _ subject "phone" "mindlamp_type"
        "activity"]
    apply length_filter_disjoint
    intro r hrg
    exact hd r (modality_files_subset db _ subject "phone" r hrg)

/-- Concrete instance of C2 (amended): over `cexDb` the run emits exactly
one protected+raw `phone` row. -/
theorem phone_subtype_rows_all_partitions_witness :
    (process_subject wSubjects cexDb "S1").filter
        (statKeyPred "phone" true true) =
      [partitionStatRow cexDb (get_subject_study_id wSubjects "S1") "S1"
        "phone" true true] :=
  (phone_subtype_rows_all_partitions wSubjects cexDb "S1" (by decide)
    (by decide) (by decide)).1

end PhoenixTracker
